import Mathlib

/-!
# axecore-message: signing and verifying text messages with Axe keys

A shallow embedding of `lib/message.js`.  The module is a thin driver over
`@axerunners/axecore-lib` and the Node runtime; the library's curve arithmetic,
key and address objects, the double hash and the runtime's base64 decoder are
collaborators and appear here as the fields of `Bitcore`, so every theorem
holds for every implementation of them.  The byte-level pieces the module
itself relies on (UTF-8 conversion of a JavaScript string, the variable-length
integer, buffer concatenation, the compact signature layout, base64 text) are
executable definitions.

A method that can assign `this.error` is a function from the receiver to a
pair of the call's outcome (`Except JSError _`, a raise being `.error`) and
the receiver after the call.
-/

set_option maxRecDepth 8000

namespace AxecoreMessage

/-! ## Runtime values -/

/-- A Node `Buffer`: a sequence of bytes, each a number below 256. -/
abbrev Buffer := List Nat

/-- A JavaScript string: a sequence of UTF-16 code units, each a number below
65536.  A surrogate code unit may stand alone in such a string. -/
abbrev JSString := List Nat

/-- The UTF-16 code units of one Unicode scalar value. -/
def utf16Units (c : Char) : List Nat :=
  if c.toNat < 0x10000 then [c.toNat]
  else [0xD800 + (c.toNat - 0x10000) / 0x400, 0xDC00 + (c.toNat - 0x10000) % 0x400]

/-- The JavaScript string a source literal denotes. -/
def JSString.ofString (s : String) : JSString :=
  s.toList.foldr (fun c acc => utf16Units c ++ acc) []

/-- A lead (high) surrogate code unit, `0xD800..0xDBFF`. -/
def isHighSurrogate (u : Nat) : Bool := decide (0xD800 ≤ u) && decide (u < 0xDC00)

/-- A trail (low) surrogate code unit, `0xDC00..0xDFFF`. -/
def isLowSurrogate (u : Nat) : Bool := decide (0xDC00 ≤ u) && decide (u < 0xE000)

/-- Any surrogate code unit, `0xD800..0xDFFF`. -/
def isSurrogate (u : Nat) : Bool := decide (0xD800 ≤ u) && decide (u < 0xE000)

/-- The code point a lead/trail surrogate pair stands for. -/
def pairCodePoint (hi lo : Nat) : Nat := 0x10000 + (hi - 0xD800) * 0x400 + (lo - 0xDC00)

/-- UTF-8 bytes of one code point. -/
def utf8CodePoint (c : Nat) : Buffer :=
  if c < 0x80 then [c]
  else if c < 0x800 then [0xC0 + c / 64, 0x80 + c % 64]
  else if c < 0x10000 then [0xE0 + c / 4096, 0x80 + c / 64 % 64, 0x80 + c % 64]
  else [0xF0 + c / 262144 % 8, 0x80 + c / 4096 % 64, 0x80 + c / 64 % 64, 0x80 + c % 64]

/-- The bytes of U+FFFD, which the runtime writes for a surrogate code unit
that has no partner. -/
def replacementBytes : Buffer := [0xEF, 0xBF, 0xBD]

/-- `Buffer.from(string)` with the default `'utf8'` encoding: the UTF-8 bytes of
the string, a surrogate pair giving one four-byte sequence and a lone surrogate
the three bytes of U+FFFD. -/
def bufferFromString : JSString → Buffer
  | [] => []
  | [u] => if isSurrogate u then replacementBytes else utf8CodePoint u
  | u :: v :: rest =>
    if isHighSurrogate u && isLowSurrogate v then
      utf8CodePoint (pairCodePoint u v) ++ bufferFromString rest
    else if isSurrogate u then replacementBytes ++ bufferFromString (v :: rest)
    else utf8CodePoint u ++ bufferFromString (v :: rest)

/-- `Buffer.concat(list)`. -/
def Buffer.concat (parts : List Buffer) : Buffer := parts.foldr (fun p acc => p ++ acc) []

/-- The `width` low bytes of `n`, least significant first (`writeUInt16LE`,
`writeUInt32LE`). -/
def leBytes : Nat → Nat → Buffer
  | 0, _ => []
  | width + 1, n => n % 256 :: leBytes width (n / 256)

/-- Modelled from the spec: `BufferWriter.varintBufNum` of the library, the
variable-width integer "1 byte for lengths < 0xfd, else a marker byte followed
by a fixed-width integer"; the markers `0xfd`, `0xfe`, `0xff` are followed by
2, 4 and 8 little-endian bytes. -/
def varintBufNum (n : Nat) : Buffer :=
  if n < 253 then [n]
  else if n < 0x10000 then 253 :: leBytes 2 n
  else if n < 0x100000000 then 254 :: leBytes 4 n
  else 255 :: leBytes 8 n

/-- What a call raises. `invalidArgument` is the error of `$.checkArgument`, with
the text handed to it; `typeError` the runtime's error for a method call on
`undefined`; `library` an error raised inside a collaborator. -/
inductive JSError where
  | invalidArgument (argumentName : Option String)
  | typeError
  | library (message : String)
  deriving DecidableEq, Repr

deriving instance DecidableEq for Except

/-- Modelled from the spec: the library's `Signature` as the spec's
RecoverableSignature, "two large integers, conventionally named r and s, plus a
small integer recovery id" in `0..3` and the flag "whether that public key
should be treated as compressed". -/
structure Signature where
  r : Nat
  s : Nat
  i : Fin 4
  compressed : Bool
  deriving DecidableEq, Repr

/-- The types of the library's key, address and network objects. -/
structure Types where
  PrivateKey : Type
  PublicKey : Type
  Address : Type
  Network : Type

/-- An argument as a caller may pass it: JavaScript is untyped, so every
parameter ranges over all of these. `string` is a primitive string,
`stringObject` a `String` wrapper object (`new String(s)`), and `object` any
object that is neither a `String` nor one of the library classes below (a
`Date`, say). -/
inductive JSValue (T : Types) where
  | undefined
  | null
  | boolean (b : Bool)
  | number (n : Int)
  | string (s : JSString)
  | stringObject (s : JSString)
  | object (className : String)
  | privateKey (k : T.PrivateKey)
  | publicKey (p : T.PublicKey)
  | signature (sig : Signature)
  | address (a : T.Address)

/-- `_.isString(x)` of lodash: true for a primitive string and for a `String`
object. -/
def isString {T : Types} : JSValue T → Bool
  | .string _ => true
  | .stringObject _ => true
  | _ => false

/-- JavaScript truthiness: `undefined`, `null`, `false`, `0` and `''` are falsy;
every object is truthy, a `String` object that wraps `''` included. -/
def truthy {T : Types} : JSValue T → Bool
  | .undefined => false
  | .null => false
  | .boolean b => b
  | .number n => decide (n ≠ 0)
  | .string s => !s.isEmpty
  | _ => true

/-- The characters of a value that `_.isString` accepts. -/
def stringChars {T : Types} : JSValue T → Option JSString
  | .string s => some s
  | .stringObject s => some s
  | _ => none

/-- `x instanceof PrivateKey`. -/
def isPrivateKey {T : Types} : JSValue T → Bool
  | .privateKey _ => true
  | _ => false

/-- `x instanceof PublicKey`. -/
def isPublicKey {T : Types} : JSValue T → Bool
  | .publicKey _ => true
  | _ => false

/-- `x instanceof Signature`. -/
def isSignature {T : Types} : JSValue T → Bool
  | .signature _ => true
  | _ => false

/-! ## The message object -/

/-- A `Message` instance: the `message` field set by the constructor, and the
`error` field, absent (`none`) until a verification fails.  `message` holds the
characters of `this.message` and `boxed` says whether `this.message` is a
`String` object that wraps them rather than a primitive string. -/
structure Message where
  message : JSString
  error : Option String := none
  boxed : Bool := false
  deriving DecidableEq, Repr

/-- The value of the field `this.message`. -/
def Message.messageValue {T : Types} (self : Message) : JSValue T :=
  if self.boxed then .stringObject self.message else .string self.message

/-- `new Message(message)`: `$.checkArgument(_.isString(message), ...)`, then
`this.message = message`. -/
def Message.construct {T : Types} (message : JSValue T) : Except JSError Message :=
  match message with
  | .string s => .ok { message := s }
  | .stringObject s => .ok { message := s, boxed := true }
  | _ => .error (.invalidArgument (some "First argument should be a string"))

/-- `Message(message)` called as a plain function: `this` is not a `Message`, so
the body returns `new Message(message)`. -/
def Message.call {T : Types} (message : JSValue T) : Except JSError Message :=
  Message.construct message

/-- `Message.fromString(str)`. -/
def Message.fromString {T : Types} (str : JSValue T) : Except JSError Message :=
  Message.construct str

/-- `Message.prototype.toString`: `return this.message`. -/
def Message.toString {T : Types} (self : Message) : JSValue T := self.messageValue

/-- `Message.MAGIC_BYTES = Buffer.from('DarkCoin Signed Message:\n')`. -/
def MAGIC_BYTES : Buffer := bufferFromString (JSString.ofString "DarkCoin Signed Message:\n")

/-- The local `buf` of `magicHash`: the bytes handed to the double hash.
`Buffer.from(this.message)` gives the same bytes for a primitive string and for
a `String` object that wraps it. -/
def magicHashInput (self : Message) : Buffer :=
  let prefix1 := varintBufNum MAGIC_BYTES.length
  let messageBuffer := bufferFromString self.message
  let prefix2 := varintBufNum messageBuffer.length
  Buffer.concat [prefix1, MAGIC_BYTES, prefix2, messageBuffer]

/-! ## The compact signature and its base64 text -/

/-- The `width` low bytes of `n`, most significant first (`BN.toBuffer({size})`). -/
def beBytes (width n : Nat) : Buffer := (leBytes width n).reverse

/-- The number a big-endian byte sequence denotes (`BN.fromBuffer`). -/
def beNat (bytes : Buffer) : Nat := bytes.foldl (fun acc b => acc * 256 + b) 0

/-- Modelled from the spec: `Signature.prototype.toCompact` of the library, the
CompactSignatureEncoding "1 header byte ... followed by r (32 bytes,
big-endian) and s (32 bytes, big-endian)", the header being the recovery id
"offset by a fixed constant (conventionally 27, plus 4 if compressed)". -/
def Signature.toCompact (sig : Signature) : Buffer :=
  (27 + sig.i.val + (if sig.compressed then 4 else 0)) :: (beBytes 32 sig.r ++ beBytes 32 sig.s)

/-- `Signature.fromCompact` of the library.  The header byte, less 27, gives the
recovery id and the compression flag (27..30 uncompressed, 31..34 compressed)
and any other header is rejected; r is read from bytes 1..33 and s from bytes
33..65, and each slice is checked to be 32 bytes long.  So a buffer of fewer
than 65 bytes is rejected, and bytes past the 65th are not looked at (the spec
asks for exactly 65). -/
def Signature.fromCompact (buf : Buffer) : Except String Signature :=
  match buf with
  | [] => .error "i must be 0, 1, 2, or 3"
  | header :: body =>
    let b2 := body.take 32
    let b3 := (body.drop 32).take 32
    if ¬ (27 ≤ header ∧ header ≤ 34) then .error "i must be 0, 1, 2, or 3"
    else if b2.length ≠ 32 then .error "r must be 32 bytes"
    else if b3.length ≠ 32 then .error "s must be 32 bytes"
    else
      .ok { r := beNat b2
            s := beNat b3
            i := ⟨(header - 27) % 4, Nat.mod_lt _ (by decide)⟩
            compressed := decide (31 ≤ header) }

/-- The character of the base64 alphabet for a six-bit value. -/
def base64Char (n : Nat) : Nat :=
  if n < 26 then 65 + n
  else if n < 52 then 97 + (n - 26)
  else if n < 62 then 48 + (n - 52)
  else if n = 62 then 43
  else 47

/-- `buffer.toString('base64')`: standard base64 text with `=` padding. -/
def base64Encode : Buffer → JSString
  | [] => []
  | [a] => [base64Char (a / 4), base64Char (a % 4 * 16), 61, 61]
  | [a, b] => [base64Char (a / 4), base64Char (a % 4 * 16 + b / 16), base64Char (b % 16 * 4), 61]
  | a :: b :: c :: rest =>
    base64Char (a / 4) :: base64Char (a % 4 * 16 + b / 16) ::
      base64Char (b % 16 * 4 + c / 64) :: base64Char (c % 64) :: base64Encode rest

/-! ## The collaborators -/

/-- An `ECDSA` object of the library, as far as this module reads and writes its
fields; `new ECDSA()` has none of them set. -/
structure ECDSA (T : Types) where
  hashbuf : Option Buffer := none
  privkey : Option T.PrivateKey := none
  pubkey : Option T.PublicKey := none
  sig : Option Signature := none

/-- What the module calls in `@axerunners/axecore-lib` and in the runtime.  A
call that can throw returns `Except String _`.  `signRandomK` draws its nonce
from the runtime's random source; here the drawn value is an argument. -/
structure Bitcore (T : Types) where
  /-- `Hash.sha256sha256(buf)`. -/
  sha256sha256 : Buffer → Buffer
  /-- `privateKey.toPublicKey()`. -/
  privateKeyToPublicKey : T.PrivateKey → T.PublicKey
  /-- `ecdsa.signRandomK()`: sets `ecdsa.sig`. -/
  signRandomK : ECDSA T → Nat → Except String (ECDSA T)
  /-- `ecdsa.calci()`: sets the recovery id and compression flag of `ecdsa.sig`. -/
  calci : ECDSA T → Except String (ECDSA T)
  /-- `ecdsa.toPublicKey()`: the public key recovered from `hashbuf` and `sig`. -/
  toPublicKey : ECDSA T → Except String T.PublicKey
  /-- `ECDSA.verify(hash, signature, publicKey)`. -/
  verify : Buffer → Signature → T.PublicKey → Bool
  /-- `Buffer.from(text, 'base64')`: the runtime's decoder returns a buffer for
  every text and does not throw. -/
  base64Decode : JSString → Buffer
  /-- `Address.fromString(text)`. -/
  addressFromString : JSString → Except String T.Address
  /-- `Address.fromPublicKey(publicKey, network)`. -/
  addressFromPublicKey : T.PublicKey → T.Network → T.Address
  /-- `address.network`. -/
  addressNetwork : T.Address → T.Network
  /-- `address.toString()`. -/
  addressToString : T.Address → JSString

/-- A collaborator's throw, as the caller sees it. -/
def liftLibrary {α : Type} : Except String α → Except JSError α
  | .ok a => .ok a
  | .error e => .error (.library e)

/-! ## Hashing, signing and verifying -/

/-- `Message.prototype.magicHash`. -/
def Message.magicHash {T : Types} (B : Bitcore T) (self : Message) : Buffer :=
  B.sha256sha256 (magicHashInput self)

/-- `Message.prototype._sign`; `entropy` is the value `signRandomK` draws. -/
def Message._sign {T : Types} (B : Bitcore T) (self : Message) (privateKey : JSValue T)
    (entropy : Nat) : Except JSError (Option Signature) × Message :=
  match privateKey with
  | .privateKey k =>
    let hash := self.magicHash B
    let ecdsa : ECDSA T := {}
    let ecdsa := { ecdsa with hashbuf := some hash }
    let ecdsa := { ecdsa with privkey := some k }
    let ecdsa := { ecdsa with pubkey := some (B.privateKeyToPublicKey k) }
    match B.signRandomK ecdsa entropy with
    | .error e => (.error (.library e), self)
    | .ok ecdsa =>
      match B.calci ecdsa with
      | .error e => (.error (.library e), self)
      | .ok ecdsa => (.ok ecdsa.sig, self)
  | _ => (.error (.invalidArgument (some "First argument should be an instance of PrivateKey")), self)

/-- `Message.prototype.sign`: the base64 text of the compact signature; a
`_sign` that hands back no signature makes `signature.toCompact()` a
`TypeError`. -/
def Message.sign {T : Types} (B : Bitcore T) (self : Message) (privateKey : JSValue T)
    (entropy : Nat) : Except JSError JSString × Message :=
  match self._sign B privateKey entropy with
  | (.error e, self) => (.error e, self)
  | (.ok none, self) => (.error .typeError, self)
  | (.ok (some signature), self) => (.ok (base64Encode signature.toCompact), self)

/-- `Message.prototype._verify`. -/
def Message._verify {T : Types} (B : Bitcore T) (self : Message)
    (publicKey signature : JSValue T) : Except JSError Bool × Message :=
  match publicKey with
  | .publicKey pk =>
    match signature with
    | .signature sig =>
      let hash := self.magicHash B
      let verified := B.verify hash sig pk
      if !verified then (.ok verified, { self with error := some "The signature was invalid" })
      else (.ok verified, self)
    | _ =>
      (.error (.invalidArgument (some "Second argument should be an instance of Signature")), self)
  | _ => (.error (.invalidArgument (some "First argument should be an instance of PublicKey")), self)

/-- The first argument of `verify` at its documented type `Address|String`, or
left out (`undefined`). -/
inductive AddressArg (T : Types) where
  | absent
  | string (s : JSString)
  | address (a : T.Address)

/-- Truthiness of the address argument. -/
def AddressArg.truthy {T : Types} : AddressArg T → Bool
  | .absent => false
  | .string s => !s.isEmpty
  | .address _ => true

/-- `if (_.isString(bitcoinAddress)) bitcoinAddress = Address.fromString(bitcoinAddress)`. -/
def resolveAddress {T : Types} (B : Bitcore T) : AddressArg T → Except JSError T.Address
  | .absent => .error .typeError
  | .string s => liftLibrary (B.addressFromString s)
  | .address a => .ok a

/-- `Signature.fromCompact(Buffer.from(signatureString, 'base64'))`; a `String`
object is decoded as the string it wraps. -/
def decodeSignature {T : Types} (B : Bitcore T) : JSValue T → Except JSError Signature
  | .string s => liftLibrary (Signature.fromCompact (B.base64Decode s))
  | .stringObject s => liftLibrary (Signature.fromCompact (B.base64Decode s))
  | _ => .error .typeError

/-- `Message.prototype.verify`. -/
def Message.verify {T : Types} (B : Bitcore T) (self : Message) (btcAddress : AddressArg T)
    (signatureString : JSValue T) : Except JSError Bool × Message :=
  if !btcAddress.truthy then (.error (.invalidArgument none), self)
  else if !(truthy signatureString && isString signatureString) then
    (.error (.invalidArgument none), self)
  else
    match resolveAddress B btcAddress with
    | .error e => (.error e, self)
    | .ok bitcoinAddress =>
      match decodeSignature B signatureString with
      | .error e => (.error e, self)
      | .ok signature =>
        let ecdsa : ECDSA T := {}
        let ecdsa := { ecdsa with hashbuf := some (self.magicHash B) }
        let ecdsa := { ecdsa with sig := some signature }
        match B.toPublicKey ecdsa with
        | .error e => (.error (.library e), self)
        | .ok publicKey =>
          let signatureAddress :=
            B.addressFromPublicKey publicKey (B.addressNetwork bitcoinAddress)
          if B.addressToString bitcoinAddress ≠ B.addressToString signatureAddress then
            (.ok false, { self with error := some "The signature did not match the message digest" })
          else self._verify B (.publicKey publicKey) (.signature signature)

/-! ## Well-formed strings -/

/-- A string whose surrogate code units all come in lead/trail pairs and whose
code units are all below 65536: the UTF-16 form of a sequence of Unicode scalar
values. -/
def wellFormedUTF16 : JSString → Bool
  | [] => true
  | [u] => !isSurrogate u && decide (u < 0x10000)
  | u :: v :: rest =>
    if isHighSurrogate u then isLowSurrogate v && wellFormedUTF16 rest
    else !isSurrogate u && decide (u < 0x10000) && wellFormedUTF16 (v :: rest)

/-- The UTF-16 code units of a code point. -/
def codePointUnits (c : Nat) : JSString :=
  if c < 0x10000 then [c] else [0xD800 + (c - 0x10000) / 0x400, 0xDC00 + (c - 0x10000) % 0x400]

/-! ## The spec's reading of the hash input -/

/-- The Unicode scalar value one code unit stands for on its own: itself, or
U+FFFD when it is a surrogate. -/
def scalarOfUnit (u : Nat) : Char :=
  if 0xD800 ≤ u ∧ u ≤ 0xDFFF then Char.ofNat 0xFFFD else Char.ofNat u

/-- The Unicode scalar values of a JavaScript string: a lead surrogate followed
by a trail surrogate is one supplementary character, whose number has the low
ten bits of the lead above the low ten bits of the trail, plus `0x10000`; every
other code unit is a character of its own, an unpaired surrogate being read as
U+FFFD. -/
def scalarValues : JSString → List Char
  | [] => []
  | [u] => [scalarOfUnit u]
  | u :: v :: rest =>
    if 0xD800 ≤ u ∧ u ≤ 0xDBFF ∧ 0xDC00 ≤ v ∧ v ≤ 0xDFFF then
      Char.ofNat (0x10000 + (u % 0x400 * 0x400 + v % 0x400)) :: scalarValues rest
    else scalarOfUnit u :: scalarValues (v :: rest)

/-- The UTF-8 encoding of a JavaScript string: the standard library's UTF-8
bytes of each of its scalar values, in order. -/
def specUTF8 (m : JSString) : Buffer :=
  ((scalarValues m).map fun c => (String.utf8EncodeChar c).map UInt8.toNat).foldr
    (fun bytes acc => bytes ++ acc) []

/-- The 25 bytes of the fixed text `DarkCoin Signed Message:` and a line feed. -/
def specMagicBytes : Buffer :=
  [0x44, 0x61, 0x72, 0x6b, 0x43, 0x6f, 0x69, 0x6e, 0x20, 0x53, 0x69, 0x67, 0x6e, 0x65, 0x64,
   0x20, 0x4d, 0x65, 0x73, 0x73, 0x61, 0x67, 0x65, 0x3a, 0x0a]

/-- The spec's preimage, "[varint(len(prefix))] [prefix bytes] [varint(len(message))]
[message bytes]", for message bytes `bytes`. -/
def specPreimage (bytes : Buffer) : Buffer :=
  varintBufNum 25 ++ specMagicBytes ++ varintBufNum bytes.length ++ bytes

/-! ## A small implementation of the collaborators

Used to run the module on concrete inputs.  Keys are numbers with a compression
flag, the "curve" is multiplication modulo 251, and an address is a key digest
with a network number. -/

/-- The value of a base64 character, if it is one. -/
def base64Value (c : Nat) : Option Nat :=
  if 65 ≤ c ∧ c ≤ 90 then some (c - 65)
  else if 97 ≤ c ∧ c ≤ 122 then some (c - 71)
  else if 48 ≤ c ∧ c ≤ 57 then some (c + 4)
  else if c = 43 then some 62
  else if c = 47 then some 63
  else none

/-- The six-bit values of the base64 characters of a text up to its first `=`,
characters outside the alphabet being skipped. -/
def base64Sextets : JSString → List Nat
  | [] => []
  | c :: rest =>
    if c = 61 then []
    else
      match base64Value c with
      | some v => v :: base64Sextets rest
      | none => base64Sextets rest

/-- The bytes a sequence of six-bit values spells. -/
def sextetBytes : List Nat → Buffer
  | a :: b :: c :: d :: rest =>
    (a * 4 + b / 16) :: (b % 16 * 16 + c / 4) :: (c % 4 * 64 + d) :: sextetBytes rest
  | [a, b, c] => [a * 4 + b / 16, b % 16 * 16 + c / 4]
  | [a, b] => [a * 4 + b / 16]
  | _ => []

/-- A base64 decoder in the manner of the runtime's: it skips what is not a
base64 character, stops at the first `=`, and returns a buffer for every text. -/
def base64DecodeLenient (text : JSString) : Buffer := sextetBytes (base64Sextets text)

/-- A strict base64 decoder: groups of four characters, padding only at the end.
A text it rejects is not valid base64. -/
def base64DecodeStrict : JSString → Except String Buffer
  | [] => .ok []
  | a :: b :: c :: d :: rest =>
    match base64Value a, base64Value b with
    | some x, some y =>
      if c = 61 ∧ d = 61 ∧ rest = [] then .ok [x * 4 + y / 16]
      else
        match base64Value c with
        | some z =>
          if d = 61 ∧ rest = [] then .ok [x * 4 + y / 16, y % 16 * 16 + z / 4]
          else
            match base64Value d with
            | some w =>
              match base64DecodeStrict rest with
              | .ok tail => .ok ((x * 4 + y / 16) :: (y % 16 * 16 + z / 4) :: (z % 4 * 64 + w) :: tail)
              | .error e => .error e
            | none => .error "not base64"
        | none => .error "not base64"
    | _, _ => .error "not base64"
  | _ => .error "not base64"

/-- Keys `(number, compressed)`, addresses `(digest, network)`, networks numbered. -/
abbrev demoTypes : Types where
  PrivateKey := Nat × Bool
  PublicKey := Nat × Bool
  Address := Nat × Nat
  Network := Nat

/-- The digest the demo signature scheme signs: the hash read as a number, modulo 1000. -/
def demoDigest (hash : Buffer) : Nat := beNat hash % 1000

/-- The demo collaborators. -/
def demoBitcore : Bitcore demoTypes where
  sha256sha256 := fun buf => List.replicate 32 (buf.foldl (fun acc b => (acc * 31 + b) % 256) 7)
  privateKeyToPublicKey := fun k => (k.1 * 7 % 251, k.2)
  signRandomK := fun ecdsa entropy =>
    match ecdsa.hashbuf, ecdsa.privkey with
    | some hash, some k =>
      .ok { ecdsa with sig := some { r := k.1 * 7 % 251
                                     s := demoDigest hash + 1000 * entropy
                                     i := 0
                                     compressed := false } }
    | _, _ => .error "hashbuf and privkey must be set"
  calci := fun ecdsa =>
    match ecdsa.sig, ecdsa.pubkey with
    | some sig, some p =>
      .ok { ecdsa with sig := some { sig with i := ⟨p.1 % 4, Nat.mod_lt _ (by decide)⟩
                                              compressed := p.2 } }
    | _, _ => .error "Unable to find valid recovery factor"
  toPublicKey := fun ecdsa =>
    match ecdsa.sig with
    | some sig => if sig.r < 251 then .ok (sig.r, sig.compressed) else .error "Invalid point"
    | none => .error "sig must be set"
  verify := fun hash sig p => decide (sig.r = p.1) && decide (sig.s % 1000 = demoDigest hash)
  base64Decode := base64DecodeLenient
  addressFromString := fun text =>
    match text with
    | [n, d] => if 65 ≤ n ∧ 48 ≤ d then .ok (d - 48, n - 65) else .error "Invalid address"
    | _ => .error "Invalid address"
  addressFromPublicKey := fun p network => (2 * p.1 + (if p.2 then 1 else 0), network)
  addressNetwork := fun a => a.2
  addressToString := fun a => [65 + a.2, 48 + a.1]

/-- The message of the repository's tests. -/
def demoMessage : Message := { message := JSString.ofString "hello, world" }

/-- A compressed demo key, its public key being `(35, true)`. -/
def demoKey : Nat × Bool := (5, true)

/-- The address of `demoKey` on network 1, as an object. -/
def demoAddress : Nat × Nat := (71, 1)

/-- The address of another key, `(6, true)`, on network 1. -/
def demoOtherAddress : Nat × Nat := (85, 1)

/-- What `demoMessage.sign(demoKey)` returns when the nonce drawn is 3. -/
def demoSignatureText : JSString :=
  JSString.ofString
    "IgAAAAAAAAAAAAAAAAAAAAAAAAAAAAAAAAAAAAAAAAAjAAAAAAAAAAAAAAAAAAAAAAAAAAAAAAAAAAAAAAAADL4="

/-- A well-formed compact signature that recovers `demoKey`'s public key and does
not validate. -/
def demoBadSignatureText : JSString :=
  JSString.ofString
    "IgAAAAAAAAAAAAAAAAAAAAAAAAAAAAAAAAAAAAAAAAAjAAAAAAAAAAAAAAAAAAAAAAAAAAAAAAAAAAAAAAAADL8="

/-- The compact signature of `demoSignatureText` followed by one more byte, 66
bytes as base64. -/
def demoLongSignatureText : JSString :=
  JSString.ofString
    "IgAAAAAAAAAAAAAAAAAAAAAAAAAAAAAAAAAAAAAAAAAjAAAAAAAAAAAAAAAAAAAAAAAAAAAAAAAAAAAAAAAADL4A"

/-- The text of `demoSignatureText` with a blank after its fourth character. -/
def demoDirtySignatureText : JSString :=
  JSString.ofString
    "IgAA AAAAAAAAAAAAAAAAAAAAAAAAAAAAAAAAAAAAAAAjAAAAAAAAAAAAAAAAAAAAAAAAAAAAAAAAAAAAAAAADL4="

/-- A message of one character from each UTF-8 length class. -/
def demoUnicodeMessage : Message := { message := JSString.ofString "hé€😀" }

/-! ## The byte-level definitions on known values -/

theorem bufferFromString_examples :
    bufferFromString (JSString.ofString "hé€😀")
        = [0x68, 0xC3, 0xA9, 0xE2, 0x82, 0xAC, 0xF0, 0x9F, 0x98, 0x80]
    ∧ JSString.ofString "😀" = [0xD83D, 0xDE00]
    ∧ bufferFromString [0xD83D] = [0xEF, 0xBF, 0xBD]
    ∧ bufferFromString [0xDE00, 0x41] = [0xEF, 0xBF, 0xBD, 0x41] := by decide

theorem varintBufNum_examples :
    varintBufNum 0 = [0] ∧ varintBufNum 252 = [252] ∧ varintBufNum 253 = [0xfd, 0xfd, 0x00]
    ∧ varintBufNum 0xffff = [0xfd, 0xff, 0xff]
    ∧ varintBufNum 0x10000 = [0xfe, 0x00, 0x00, 0x01, 0x00]
    ∧ varintBufNum 0x100000000 = [0xff, 0, 0, 0, 0, 1, 0, 0, 0] := by decide

theorem base64_examples :
    base64Encode (bufferFromString (JSString.ofString "hello")) = JSString.ofString "aGVsbG8="
    ∧ base64Encode [0xfb, 0xff] = JSString.ofString "+/8="
    ∧ base64DecodeStrict (JSString.ofString "aGVsbG8=")
        = .ok (bufferFromString (JSString.ofString "hello"))
    ∧ base64DecodeStrict (JSString.ofString "aGVsbG8") = .error "not base64"
    ∧ base64DecodeLenient (JSString.ofString "aGVsbG8=")
        = bufferFromString (JSString.ofString "hello")
    ∧ base64DecodeLenient (JSString.ofString "aGVs bG8")
        = bufferFromString (JSString.ofString "hello") := by decide

theorem beNat_append_singleton (bytes : Buffer) (b : Nat) :
    beNat (bytes ++ [b]) = beNat bytes * 256 + b := by
  simp [beNat]

theorem leBytes_length (width n : Nat) : (leBytes width n).length = width := by
  induction width generalizing n with
  | zero => rfl
  | succ w ih => simp [leBytes, ih]

theorem beNat_beBytes (width n : Nat) : beNat (beBytes width n) = n % 256 ^ width := by
  induction width generalizing n with
  | zero => simp [beBytes, leBytes, beNat, Nat.mod_one]
  | succ w ih =>
    have h := ih (n / 256)
    simp only [beBytes] at h
    simp only [beBytes, leBytes, List.reverse_cons, beNat_append_singleton, h]
    rw [Nat.pow_succ, Nat.mul_comm (256 ^ w) 256, Nat.mod_mul]
    omega

/-- Decoding a compact signature undoes encoding it, for `r` and `s` of at most
32 bytes. -/
theorem fromCompact_toCompact (sig : Signature) (hr : sig.r < 256 ^ 32) (hs : sig.s < 256 ^ 32) :
    Signature.fromCompact sig.toCompact = .ok sig := by
  obtain ⟨r, s, ⟨i, hi⟩, compressed⟩ := sig
  simp only at hr hs
  have hlen : (Signature.toCompact ⟨r, s, ⟨i, hi⟩, compressed⟩).length = 65 := by
    simp [Signature.toCompact, beBytes, leBytes_length]
  have htake : (beBytes 32 r ++ beBytes 32 s).take 32 = beBytes 32 r := by
    rw [List.take_append_of_le_length (by simp [beBytes, leBytes_length])]
    exact List.take_of_length_le (by simp [beBytes, leBytes_length])
  have hdrop : (beBytes 32 r ++ beBytes 32 s).drop 32 = beBytes 32 s := by
    rw [List.drop_append_of_le_length (by simp [beBytes, leBytes_length])]
    simp [List.drop_of_length_le, beBytes, leBytes_length]
  have hrr : beNat (beBytes 32 r) = r := by rw [beNat_beBytes]; exact Nat.mod_eq_of_lt hr
  have hss : beNat (beBytes 32 s) = s := by rw [beNat_beBytes]; exact Nat.mod_eq_of_lt hs
  have hlen2 : (beBytes 32 r).length = 32 := by simp [beBytes, leBytes_length]
  have hlen3 : (beBytes 32 s).length = 32 := by simp [beBytes, leBytes_length]
  have htake3 : (beBytes 32 s).take 32 = beBytes 32 s :=
    List.take_of_length_le (by rw [hlen3])
  simp only [Signature.fromCompact, Signature.toCompact, htake, hdrop, htake3, hrr, hss, hlen2,
    hlen3, ne_eq, not_true_eq_false, if_false]
  cases compressed
  · have h1 : ¬ (34 < 27 + i) := by omega
    have h2 : i % 4 = i := Nat.mod_eq_of_lt hi
    have h3 : ¬ (31 ≤ 27 + i) := by omega
    simp [h1, h2, h3]
  · have h1 : 23 ≤ 27 + i ∧ 27 + i ≤ 30 := by omega
    have h2 : (27 + i - 23) % 4 = i := by omega
    simp [h1, h2]

/-- The repository's test cases, run on the demo collaborators: a non-string
message, a `String` object as message, a non-key argument of `sign`, a well-formed signature that does not
validate, and a known-good text given with the address as text or as an object. -/
theorem demo_test_cases :
    Message.construct (JSValue.object "Date" : JSValue demoTypes)
        = .error (.invalidArgument (some "First argument should be a string"))
    ∧ Message.construct (JSValue.stringObject [0x61, 0x62, 0x63] : JSValue demoTypes)
        = .ok { message := [0x61, 0x62, 0x63], boxed := true }
    ∧ (demoMessage.sign demoBitcore (.string (JSString.ofString "not a private key")) 0).1
        = .error (.invalidArgument (some "First argument should be an instance of PrivateKey"))
    ∧ demoMessage._verify demoBitcore (.publicKey (35, true))
          (.signature { r := 35, s := 3263, i := 3, compressed := true })
        = (.ok false, { demoMessage with error := some "The signature was invalid" })
    ∧ demoMessage.verify demoBitcore (.address demoAddress) (.string demoBadSignatureText)
        = (.ok false, { demoMessage with error := some "The signature was invalid" })
    ∧ demoMessage.verify demoBitcore (.string [66, 119]) (.string demoSignatureText)
        = (.ok true, demoMessage)
    ∧ demoMessage.verify demoBitcore (.address demoAddress) (.string demoSignatureText)
        = (.ok true, demoMessage) := by decide

/-! ## Construction -/

/-- C8. For every argument `x`, `new Message(x)`, `Message(x)` and
`Message.fromString(x)` raise 'First argument should be a string' exactly when
`x` is not a string (`_.isString`, which a primitive string and a `String`
object pass); and exactly when `x` is a string (the empty one included) all
three return the same message, whose `message` field and `toString()` are `x`
itself and whose `error` field is not set. -/
theorem construct_string_iff {T : Types} (x : JSValue T) :
    (isString x = false ↔
      Message.construct x = .error (.invalidArgument (some "First argument should be a string")))
    ∧ (isString x = false ↔
      Message.call x = .error (.invalidArgument (some "First argument should be a string")))
    ∧ (isString x = false ↔
      Message.fromString x
        = .error (.invalidArgument (some "First argument should be a string")))
    ∧ (isString x = true ↔
      ∃ m : Message, Message.construct x = .ok m ∧ Message.call x = .ok m
        ∧ Message.fromString x = .ok m ∧ (m.messageValue : JSValue T) = x
        ∧ (m.toString : JSValue T) = x ∧ m.error = none)
    ∧ ∀ s : JSString,
        Message.construct (JSValue.string s : JSValue T)
            = .ok { message := s, error := none, boxed := false }
        ∧ Message.construct (JSValue.stringObject s : JSValue T)
            = .ok { message := s, error := none, boxed := true } := by
  refine ⟨?_, ?_, ?_, ?_, fun s => ⟨rfl, rfl⟩⟩ <;>
    cases x <;>
    simp [isString, Message.construct, Message.call, Message.fromString, Message.toString,
      Message.messageValue]

/-! ## The hash input -/

theorem MAGIC_BYTES_eq : MAGIC_BYTES = specMagicBytes := by decide

theorem magicHashInput_eq (self : Message) :
    magicHashInput self = specPreimage (bufferFromString self.message) := by
  simp [magicHashInput, specPreimage, Buffer.concat, MAGIC_BYTES_eq, specMagicBytes]

/-! ### `Buffer.from(string)` against the standard library's UTF-8 -/

theorem or_continuation : ∀ y : Fin 64, y.val ||| 128 = y.val + 128 := by decide

theorem or_lead2 : ∀ y : Fin 32, y.val ||| 192 = y.val + 192 := by decide

theorem or_lead3 : ∀ y : Fin 16, y.val ||| 224 = y.val + 224 := by decide

theorem or_lead4 : ∀ y : Fin 8, y.val ||| 240 = y.val + 240 := by decide

theorem continuationByte_toNat (x : UInt8) : (x &&& 63 ||| 128).toNat = 0x80 + x.toNat % 64 := by
  show (x.toBitVec &&& 63 ||| 128).toNat = _
  rw [BitVec.toNat_or, BitVec.toNat_and]
  have h : x.toBitVec.toNat &&& (63 : BitVec 8).toNat = x.toBitVec.toNat % 64 :=
    Nat.and_pow_two_sub_one_eq_mod _ 6
  rw [h, Nat.add_comm]
  exact or_continuation ⟨x.toBitVec.toNat % 64, Nat.mod_lt _ (by decide)⟩

theorem leadByte2_toNat (x : UInt8) : (x &&& 31 ||| 192).toNat = 0xC0 + x.toNat % 32 := by
  show (x.toBitVec &&& 31 ||| 192).toNat = _
  rw [BitVec.toNat_or, BitVec.toNat_and]
  have h : x.toBitVec.toNat &&& (31 : BitVec 8).toNat = x.toBitVec.toNat % 32 :=
    Nat.and_pow_two_sub_one_eq_mod _ 5
  rw [h, Nat.add_comm]
  exact or_lead2 ⟨x.toBitVec.toNat % 32, Nat.mod_lt _ (by decide)⟩

theorem leadByte3_toNat (x : UInt8) : (x &&& 15 ||| 224).toNat = 0xE0 + x.toNat % 16 := by
  show (x.toBitVec &&& 15 ||| 224).toNat = _
  rw [BitVec.toNat_or, BitVec.toNat_and]
  have h : x.toBitVec.toNat &&& (15 : BitVec 8).toNat = x.toBitVec.toNat % 16 :=
    Nat.and_pow_two_sub_one_eq_mod _ 4
  rw [h, Nat.add_comm]
  exact or_lead3 ⟨x.toBitVec.toNat % 16, Nat.mod_lt _ (by decide)⟩

theorem leadByte4_toNat (x : UInt8) : (x &&& 7 ||| 240).toNat = 0xF0 + x.toNat % 8 := by
  show (x.toBitVec &&& 7 ||| 240).toNat = _
  rw [BitVec.toNat_or, BitVec.toNat_and]
  have h : x.toBitVec.toNat &&& (7 : BitVec 8).toNat = x.toBitVec.toNat % 8 :=
    Nat.and_pow_two_sub_one_eq_mod _ 3
  rw [h, Nat.add_comm]
  exact or_lead4 ⟨x.toBitVec.toNat % 8, Nat.mod_lt _ (by decide)⟩

theorem toUInt8_toNat (v : UInt32) : v.toUInt8.toNat = v.toNat % 256 := by
  simp [UInt32.toUInt8, Nat.toUInt8, UInt8.ofNat, UInt8.toNat]

theorem shiftRight6_toNat (v : UInt32) : (v >>> 6).toNat = v.toNat / 64 := by
  show (v.toBitVec >>> ((6 : UInt32).mod 32).toBitVec).toNat = _
  have : ((6 : UInt32).mod 32).toBitVec.toNat = 6 := by decide
  simp [BitVec.toNat_ushiftRight, this, Nat.shiftRight_eq_div_pow, UInt32.toNat]

theorem shiftRight12_toNat (v : UInt32) : (v >>> 12).toNat = v.toNat / 4096 := by
  show (v.toBitVec >>> ((12 : UInt32).mod 32).toBitVec).toNat = _
  have : ((12 : UInt32).mod 32).toBitVec.toNat = 12 := by decide
  simp [BitVec.toNat_ushiftRight, this, Nat.shiftRight_eq_div_pow, UInt32.toNat]

theorem shiftRight18_toNat (v : UInt32) : (v >>> 18).toNat = v.toNat / 262144 := by
  show (v.toBitVec >>> ((18 : UInt32).mod 32).toBitVec).toNat = _
  have : ((18 : UInt32).mod 32).toBitVec.toNat = 18 := by decide
  simp [BitVec.toNat_ushiftRight, this, Nat.shiftRight_eq_div_pow, UInt32.toNat]

theorem char_toNat_lt (c : Char) : c.toNat < 0x110000 := by
  have h := c.valid
  unfold UInt32.isValidChar Nat.isValidChar at h
  show c.val.toNat < _
  omega

theorem uint32_le_literal (v : UInt32) (k : Nat) (hk : k < 4294967296) :
    v ≤ (OfNat.ofNat k : UInt32) ↔ v.toNat ≤ k := by
  rw [UInt32.le_def, BitVec.le_def]
  show v.toNat ≤ (BitVec.ofNat 32 k).toNat ↔ _
  rw [BitVec.toNat_ofNat, Nat.mod_eq_of_lt hk]

/-- The model's bytes of one code point are the standard library's UTF-8 bytes of
the character. -/
theorem utf8EncodeChar_toNat (c : Char) :
    (String.utf8EncodeChar c).map UInt8.toNat = utf8CodePoint c.toNat := by
  have hlt := char_toNat_lt c
  have hv : c.val.toNat = c.toNat := rfl
  unfold String.utf8EncodeChar utf8CodePoint
  simp only [uint32_le_literal _ _ (by decide : (127 : Nat) < 4294967296),
    uint32_le_literal _ _ (by decide : (2047 : Nat) < 4294967296),
    uint32_le_literal _ _ (by decide : (65535 : Nat) < 4294967296), hv]
  split_ifs <;>
    simp only [List.map_cons, List.map_nil, continuationByte_toNat, leadByte2_toNat,
      leadByte3_toNat, leadByte4_toNat, toUInt8_toNat, shiftRight6_toNat, shiftRight12_toNat,
      shiftRight18_toNat, hv, List.cons.injEq, and_true] <;>
    omega

theorem char_ofNat_toNat (n : Nat) (h : n.isValidChar) : (Char.ofNat n).toNat = n := by
  unfold Char.ofNat
  rw [dif_pos h]
  rfl

theorem specUTF8_cons_char (c : Char) (cs : List Char) :
    ((c :: cs).map fun c => (String.utf8EncodeChar c).map UInt8.toNat).foldr
        (fun bytes acc => bytes ++ acc) []
      = utf8CodePoint c.toNat
        ++ (cs.map fun c => (String.utf8EncodeChar c).map UInt8.toNat).foldr
            (fun bytes acc => bytes ++ acc) [] := by
  simp [utf8EncodeChar_toNat]

theorem scalarOfUnit_bytes (u : Nat) (hu : u < 0x10000) :
    utf8CodePoint (scalarOfUnit u).toNat
      = if isSurrogate u then replacementBytes else utf8CodePoint u := by
  unfold scalarOfUnit
  by_cases hs : 0xD800 ≤ u ∧ u ≤ 0xDFFF
  · have h1 : isSurrogate u = true := by simp [isSurrogate]; omega
    rw [if_pos hs, if_pos h1, char_ofNat_toNat _ (by unfold Nat.isValidChar; omega)]
    decide
  · have h1 : isSurrogate u = false := by simp [isSurrogate]; omega
    rw [if_neg hs, h1, char_ofNat_toNat _ (by unfold Nat.isValidChar; omega)]
    simp

/-- On a JavaScript string (code units below 65536) `Buffer.from(string)` is the
UTF-8 encoding of the string's scalar values. -/
theorem bufferFromString_eq_specUTF8 (m : JSString) (h16 : ∀ u ∈ m, u < 0x10000) :
    bufferFromString m = specUTF8 m := by
  induction m using bufferFromString.induct with
  | case1 => rfl
  | case2 u hs =>
    have hu : u < 0x10000 := h16 u (by simp)
    simp only [specUTF8, scalarValues, specUTF8_cons_char, bufferFromString, hs, if_true,
      scalarOfUnit_bytes u hu]
    simp
  | case3 u hs =>
    have hu : u < 0x10000 := h16 u (by simp)
    simp only [specUTF8, scalarValues, specUTF8_cons_char, bufferFromString, hs,
      scalarOfUnit_bytes u hu]
    simp
  | case4 u v rest hpair ih =>
    have hrest : ∀ w ∈ rest, w < 0x10000 := fun w hw => h16 w (by simp [hw])
    have hp : isHighSurrogate u = true ∧ isLowSurrogate v = true := by simpa using hpair
    have hu : 0xD800 ≤ u ∧ u < 0xDC00 := by simpa [isHighSurrogate] using hp.1
    have hv : 0xDC00 ≤ v ∧ v < 0xE000 := by simpa [isLowSurrogate] using hp.2
    have hcond : 0xD800 ≤ u ∧ u ≤ 0xDBFF ∧ 0xDC00 ≤ v ∧ v ≤ 0xDFFF := by omega
    have hcp : 0x10000 + (u % 0x400 * 0x400 + v % 0x400) = pairCodePoint u v := by
      unfold pairCodePoint; omega
    have hvalid : (pairCodePoint u v).isValidChar := by
      unfold Nat.isValidChar pairCodePoint; omega
    have ih' := ih hrest
    simp only [specUTF8] at ih'
    simp only [specUTF8, scalarValues, if_pos hcond, specUTF8_cons_char, bufferFromString, hpair,
      if_true, hcp, char_ofNat_toNat _ hvalid, ih']
  | case5 u v rest hpair hs ih =>
    have hu : u < 0x10000 := h16 u (by simp)
    have htail : ∀ w ∈ v :: rest, w < 0x10000 := fun w hw => h16 w (by simp [hw])
    have hp : ¬ (isHighSurrogate u = true ∧ isLowSurrogate v = true) := by simpa using hpair
    have hcond : ¬ (0xD800 ≤ u ∧ u ≤ 0xDBFF ∧ 0xDC00 ≤ v ∧ v ≤ 0xDFFF) := by
      intro hc
      exact hp ⟨by simp [isHighSurrogate]; omega, by simp [isLowSurrogate]; omega⟩
    have ih' := ih htail
    simp only [specUTF8] at ih'
    simp only [specUTF8, scalarValues, if_neg hcond, specUTF8_cons_char, bufferFromString, hpair,
      hs, if_true, scalarOfUnit_bytes u hu, ih']
    simp
  | case6 u v rest hpair hs ih =>
    have hu : u < 0x10000 := h16 u (by simp)
    have htail : ∀ w ∈ v :: rest, w < 0x10000 := fun w hw => h16 w (by simp [hw])
    have hp : ¬ (isHighSurrogate u = true ∧ isLowSurrogate v = true) := by simpa using hpair
    have hcond : ¬ (0xD800 ≤ u ∧ u ≤ 0xDBFF ∧ 0xDC00 ≤ v ∧ v ≤ 0xDFFF) := by
      intro hc
      exact hp ⟨by simp [isHighSurrogate]; omega, by simp [isLowSurrogate]; omega⟩
    have ih' := ih htail
    simp only [specUTF8] at ih'
    simp only [specUTF8, scalarValues, if_neg hcond, specUTF8_cons_char, bufferFromString, hpair,
      hs, scalarOfUnit_bytes u hu, ih']
    simp

/-- C3. For every message (its code units below 65536, as in every JavaScript
string), `magicHash()` is the double hash of varint(25), the 25 prefix bytes,
varint(L) and the message bytes, in this order, where the message bytes are the
UTF-8 encoding of the message (the standard library's UTF-8 bytes of its scalar
values) and `L` is their number; a length below `0xfd` is written as the single
byte `L`; the preimage starts with the byte `0x19`; and `L` counts bytes, not
characters: the one-character message `é` has the length byte 2. -/
theorem magicHash_preimage {T : Types} (B : Bitcore T) (self : Message)
    (h16 : ∀ u ∈ self.message, u < 0x10000) :
    self.magicHash B
        = B.sha256sha256
            ([0x19] ++ specMagicBytes ++ varintBufNum (specUTF8 self.message).length
              ++ specUTF8 self.message)
    ∧ specPreimage (specUTF8 self.message)
        = [0x19] ++ specMagicBytes ++ varintBufNum (specUTF8 self.message).length
            ++ specUTF8 self.message
    ∧ specMagicBytes.length = 25
    ∧ (∀ L : Fin 0xfd, varintBufNum L.val = [L.val])
    ∧ (magicHashInput self).head? = some 0x19
    ∧ magicHashInput { message := [0xE9] } = [0x19] ++ specMagicBytes ++ [2] ++ [0xC3, 0xA9] := by
  have hspec : specPreimage (specUTF8 self.message)
      = [0x19] ++ specMagicBytes ++ varintBufNum (specUTF8 self.message).length
          ++ specUTF8 self.message := by
    simp [specPreimage, varintBufNum]
  refine ⟨?_, hspec, by decide, ?_, ?_, by decide⟩
  · rw [← hspec, ← bufferFromString_eq_specUTF8 self.message h16]
    simp [Message.magicHash, magicHashInput_eq]
  · intro L
    have := L.isLt
    simp [varintBufNum, this]
  · simp [magicHashInput_eq, specPreimage, varintBufNum]

/-- A message with characters of one, two, three and four UTF-8 bytes, the last
a surrogate pair in the string: ten message bytes after the length byte `0x0a`. -/
theorem magicHash_preimage_witness :
    specUTF8 demoUnicodeMessage.message
        = [0x68, 0xC3, 0xA9, 0xE2, 0x82, 0xAC, 0xF0, 0x9F, 0x98, 0x80]
    ∧ demoUnicodeMessage.magicHash demoBitcore
        = demoBitcore.sha256sha256
            ([0x19] ++ specMagicBytes ++ [0x0a]
              ++ [0x68, 0xC3, 0xA9, 0xE2, 0x82, 0xAC, 0xF0, 0x9F, 0x98, 0x80]) :=
  ⟨by decide,
    (by decide : specUTF8 demoUnicodeMessage.message
        = [0x68, 0xC3, 0xA9, 0xE2, 0x82, 0xAC, 0xF0, 0x9F, 0x98, 0x80]) ▸
      (magicHash_preimage demoBitcore demoUnicodeMessage (by decide)).1⟩

/-! ## Low-level verification -/

/-- C6. `_verify(publicKey, signature)` raises 'First argument should be an
instance of PublicKey' when `publicKey` is not a PublicKey, whatever the second
argument; raises 'Second argument should be an instance of Signature' when the
first is a PublicKey and the second is not a Signature; a raise leaves the
receiver as it was; and for a PublicKey and a Signature it returns the boolean
of `ECDSA.verify(magicHash(), signature, publicKey)`, setting `error` to 'The
signature was invalid' exactly when that boolean is false. -/
theorem lowLevelVerify_outcome {T : Types} (B : Bitcore T) (self : Message) :
    (∀ publicKey signature : JSValue T, isPublicKey publicKey = false →
      self._verify B publicKey signature
        = (.error (.invalidArgument (some "First argument should be an instance of PublicKey")),
            self))
    ∧ (∀ (pk : T.PublicKey) (signature : JSValue T), isSignature signature = false →
      self._verify B (.publicKey pk) signature
        = (.error (.invalidArgument (some "Second argument should be an instance of Signature")),
            self))
    ∧ (∀ (pk : T.PublicKey) (sig : Signature),
      (self._verify B (.publicKey pk) (.signature sig)).1 = .ok (B.verify (self.magicHash B) sig pk)
      ∧ (B.verify (self.magicHash B) sig pk = false →
          (self._verify B (.publicKey pk) (.signature sig)).2
            = { self with error := some "The signature was invalid" })
      ∧ (B.verify (self.magicHash B) sig pk = true →
          (self._verify B (.publicKey pk) (.signature sig)).2 = self)) := by
  refine ⟨?_, ?_, ?_⟩
  · intro publicKey signature h
    cases publicKey <;> simp_all [isPublicKey, Message._verify]
  · intro pk signature h
    cases signature <;> simp_all [isSignature, Message._verify]
  · intro pk sig
    cases h : B.verify (self.magicHash B) sig pk <;> simp [Message._verify, h]

/-! ## Verification against an address -/

/-- The `ECDSA` object `verify` builds to recover the public key. -/
theorem recoveryObject_eq {T : Types} (hash : Buffer) (sig : Signature) :
    ({ ({ ({} : ECDSA T) with hashbuf := some hash } : ECDSA T) with sig := some sig } : ECDSA T)
      = { hashbuf := some hash, sig := some sig } := rfl

/-- The outcome of `verify` once its arguments pass the checks, the address
resolves, the signature decodes and a public key is recovered. -/
theorem verify_of_recovered {T : Types} (B : Bitcore T) (self : Message) (addr : AddressArg T)
    (s : JSValue T) (a : T.Address) (sig : Signature) (pk : T.PublicKey)
    (haddr : addr.truthy = true) (hs : (truthy s && isString s) = true)
    (ha : resolveAddress B addr = .ok a) (hsig : decodeSignature B s = .ok sig)
    (hpk : B.toPublicKey { hashbuf := some (self.magicHash B), sig := some sig } = .ok pk) :
    self.verify B addr s =
      if B.addressToString a ≠ B.addressToString (B.addressFromPublicKey pk (B.addressNetwork a))
      then (.ok false, { self with error := some "The signature did not match the message digest" })
      else if B.verify (self.magicHash B) sig pk = true then (.ok true, self)
      else (.ok false, { self with error := some "The signature was invalid" }) := by
  simp only [Message.verify, haddr, hs, ha, hsig, hpk]
  by_cases hm : B.addressToString a
      = B.addressToString (B.addressFromPublicKey pk (B.addressNetwork a))
  · cases hv : B.verify (self.magicHash B) sig pk <;> simp [hm, Message._verify, hv]
  · simp [hm]

/-- A call of `verify` that returns a boolean passed every check on the way. -/
theorem verify_returns_inv {T : Types} (B : Bitcore T) (self self' : Message)
    (addr : AddressArg T) (s : JSValue T) (b : Bool)
    (h : self.verify B addr s = (.ok b, self')) :
    ∃ (a : T.Address) (sig : Signature) (pk : T.PublicKey),
      addr.truthy = true ∧ (truthy s && isString s) = true ∧ resolveAddress B addr = .ok a
      ∧ decodeSignature B s = .ok sig
      ∧ B.toPublicKey { hashbuf := some (self.magicHash B), sig := some sig } = .ok pk := by
  unfold Message.verify at h
  by_cases haddr : addr.truthy = true
  swap
  · simp [haddr] at h
  by_cases hs : (truthy s && isString s) = true
  swap
  · simp [haddr, hs] at h
  simp only [haddr, hs] at h
  cases ha : resolveAddress B addr with
  | error e => simp [ha] at h
  | ok a =>
    cases hsig : decodeSignature B s with
    | error e => simp [ha, hsig] at h
    | ok sig =>
      cases hpk : B.toPublicKey { hashbuf := some (self.magicHash B), sig := some sig } with
      | error e => simp [ha, hsig, hpk] at h
      | ok pk => exact ⟨a, sig, pk, haddr, hs, rfl, rfl, hpk⟩

/-- C2. Whenever `verify` returns a boolean, the address resolved, the signature
decoded and a public key was recovered from the magic hash and the signature,
and the boolean is true exactly when both the address derived from that key on
the claimed address's network has the claimed address's string form and
`ECDSA.verify(magicHash, signature, recovered key)` is true. -/
theorem verify_true_iff_both {T : Types} (B : Bitcore T) (self self' : Message)
    (addr : AddressArg T) (s : JSValue T) (b : Bool)
    (h : self.verify B addr s = (.ok b, self')) :
    ∃ (a : T.Address) (sig : Signature) (pk : T.PublicKey),
      resolveAddress B addr = .ok a ∧ decodeSignature B s = .ok sig
      ∧ B.toPublicKey { hashbuf := some (self.magicHash B), sig := some sig } = .ok pk
      ∧ (b = true ↔
          (B.addressToString (B.addressFromPublicKey pk (B.addressNetwork a)) = B.addressToString a
            ∧ B.verify (self.magicHash B) sig pk = true)) := by
  obtain ⟨a, sig, pk, haddr, hs, ha, hsig, hpk⟩ := verify_returns_inv B self self' addr s b h
  refine ⟨a, sig, pk, ha, hsig, hpk, ?_⟩
  rw [verify_of_recovered B self addr s a sig pk haddr hs ha hsig hpk] at h
  by_cases hm : B.addressToString a
      = B.addressToString (B.addressFromPublicKey pk (B.addressNetwork a))
  · cases hv : B.verify (self.magicHash B) sig pk <;> simp_all
  · simp only [ne_eq, hm, not_false_eq_true, if_true, Prod.mk.injEq, Except.ok.injEq] at h
    constructor
    · intro hb; simp [hb] at h
    · intro hc; exact absurd hc.1.symm hm

/-- The signed demo message verifies against the signer's address given as text. -/
theorem verify_true_iff_both_witness :
    demoMessage.verify demoBitcore (.string [66, 119]) (.string demoSignatureText)
        = (.ok true, demoMessage)
    ∧ ∃ (a : Nat × Nat) (sig : Signature) (pk : Nat × Bool),
      resolveAddress demoBitcore (.string [66, 119]) = .ok a
      ∧ decodeSignature demoBitcore (.string demoSignatureText) = .ok sig
      ∧ demoBitcore.toPublicKey
          { hashbuf := some (demoMessage.magicHash demoBitcore), sig := some sig } = .ok pk
      ∧ (true = true ↔
          (demoBitcore.addressToString
              (demoBitcore.addressFromPublicKey pk (demoBitcore.addressNetwork a))
              = demoBitcore.addressToString a
            ∧ demoBitcore.verify (demoMessage.magicHash demoBitcore) sig pk = true)) :=
  ⟨by decide,
    verify_true_iff_both demoBitcore demoMessage demoMessage (.string [66, 119])
      (.string demoSignatureText) true (by decide)⟩

/-- C4. When the address resolves, the signature string is non-empty and decodes,
a public key is recovered, and the address derived from it on the claimed
address's network has a string form other than the claimed address's, `verify`
returns false without raising and sets `error` to 'The signature did not match
the message digest'; the outcome is the same whatever `ECDSA.verify` would
answer, so the low-level verification plays no part in it. -/
theorem verify_address_mismatch {T : Types} (B : Bitcore T) (self : Message)
    (addr : AddressArg T) (str : JSString) (a : T.Address) (sig : Signature) (pk : T.PublicKey)
    (haddr : addr.truthy = true) (hstr : str ≠ [])
    (ha : resolveAddress B addr = .ok a) (hsig : decodeSignature B (.string str) = .ok sig)
    (hpk : B.toPublicKey { hashbuf := some (self.magicHash B), sig := some sig } = .ok pk)
    (hne : B.addressToString (B.addressFromPublicKey pk (B.addressNetwork a))
      ≠ B.addressToString a) :
    ∀ ecdsaVerify : Buffer → Signature → T.PublicKey → Bool,
      self.verify { B with verify := ecdsaVerify } addr (.string str)
        = (.ok false,
            { self with error := some "The signature did not match the message digest" }) := by
  intro ecdsaVerify
  have hne' : B.addressToString a
      ≠ B.addressToString (B.addressFromPublicKey pk (B.addressNetwork a)) := fun h => hne h.symm
  have hne0 : str.isEmpty = false := by cases str <;> simp_all
  rw [verify_of_recovered { B with verify := ecdsaVerify } self addr (.string str) a sig pk haddr
    (by simp [truthy, isString, hne0])
    (by cases addr <;> simp_all [resolveAddress])
    (by simpa [decodeSignature] using hsig) (by simpa [Message.magicHash] using hpk)]
  simp [hne']

/-- The text `demoKey` signs, verified against the address of the other key. -/
theorem verify_address_mismatch_witness :
    demoMessage.sign demoBitcore (.privateKey demoKey) 3 = (.ok demoSignatureText, demoMessage)
    ∧ demoBitcore.addressFromPublicKey (demoBitcore.privateKeyToPublicKey (6, true)) 1
        = demoOtherAddress
    ∧ demoBitcore.addressToString
        (demoBitcore.addressFromPublicKey (35, true) (demoBitcore.addressNetwork demoOtherAddress))
      ≠ demoBitcore.addressToString demoOtherAddress
    ∧ ∀ ecdsaVerify : Buffer → Signature → Nat × Bool → Bool,
      demoMessage.verify { demoBitcore with verify := ecdsaVerify } (.address demoOtherAddress)
          (.string demoSignatureText)
        = (.ok false,
            { demoMessage with error := some "The signature did not match the message digest" }) :=
  ⟨by decide, by decide, by decide,
    verify_address_mismatch demoBitcore demoMessage (.address demoOtherAddress) demoSignatureText
      demoOtherAddress { r := 35, s := 3262, i := 3, compressed := true } (35, true)
      (by decide) (by decide) (by decide) (by decide) (by decide) (by decide)⟩

/-- `Signature.fromCompact` rejects a buffer exactly when it has fewer than 65
bytes or its first byte is outside 27..34. -/
theorem fromCompact_error_iff (buf : Buffer) :
    (∃ e, Signature.fromCompact buf = .error e)
      ↔ (buf.length < 65 ∨ ¬ (27 ≤ buf.headD 0 ∧ buf.headD 0 ≤ 34)) := by
  cases buf with
  | nil => simp [Signature.fromCompact]
  | cons header body =>
    have e2 : (body.take 32).length = 32 ↔ 32 ≤ body.length := by
      rw [List.length_take]; omega
    have e3 : ((body.drop 32).take 32).length = 32 ↔ 64 ≤ body.length := by
      rw [List.length_take, List.length_drop]; omega
    simp only [Signature.fromCompact, List.headD_cons, List.length_cons]
    by_cases hh : 27 ≤ header ∧ header ≤ 34
    · by_cases h2 : (body.take 32).length = 32
      · by_cases h3 : ((body.drop 32).take 32).length = 32
        · have hlen : ¬ (body.length + 1 < 65) := by have := e3.mp h3; omega
          simp [hh, h2, h3, hlen]
        · have hshort : ¬ (64 ≤ body.length) := fun h => h3 (e3.mpr h)
          have hlen : body.length + 1 < 65 := by omega
          have c3 : body.length - 32 < 32 := by omega
          simp [hh, h2, h3, hlen, c3]
      · have hshort : ¬ (32 ≤ body.length) := fun h => h2 (e2.mpr h)
        have hlen : body.length + 1 < 65 := by omega
        have c2 : body.length < 32 := by omega
        simp [hh, h2, hlen, c2]
    · simp [hh]

/-- C5, as amended. An argument that is empty or that `_.isString` rejects, or a
signature string (a `String` object included) whose decoded bytes number fewer
than 65 or start with a byte outside 27..34, makes `verify` raise, for every
message and every address argument (a valid one included): it returns no
boolean, and the receiver, its `error` field included, is left as it was. -/
theorem verify_malformed_signature_raises {T : Types} (B : Bitcore T) (self : Message)
    (addr : AddressArg T) (s : JSValue T)
    (hbad : truthy s = false ∨ isString s = false ∨
      ∃ str, stringChars s = some str ∧
        ((B.base64Decode str).length < 65 ∨
          ¬ (27 ≤ (B.base64Decode str).headD 0 ∧ (B.base64Decode str).headD 0 ≤ 34))) :
    ∃ e, self.verify B addr s = (.error e, self) := by
  unfold Message.verify
  by_cases haddr : addr.truthy = true
  swap
  · exact ⟨.invalidArgument none, by simp [haddr]⟩
  by_cases hs : (truthy s && isString s) = true
  swap
  · exact ⟨.invalidArgument none, by simp [haddr, hs]⟩
  have hs' : truthy s = true ∧ isString s = true := by simpa using hs
  rcases hbad with h | h | ⟨str, hstr, h⟩
  · simp [hs'.1] at h
  · simp [hs'.2] at h
  · obtain ⟨e, he⟩ := (fromCompact_error_iff (B.base64Decode str)).mpr h
    have hdec : decodeSignature B s = .error (.library e) := by
      cases s <;> simp_all [stringChars, decodeSignature, liftLibrary]
    cases ha : resolveAddress B addr with
    | error e' => exact ⟨e', by simp [haddr, hs, ha]⟩
    | ok a => exact ⟨.library e, by simp [haddr, hs, ha, hdec]⟩

/-- A text that decodes to three bytes: the call raises and an earlier reason stays. -/
theorem verify_malformed_signature_raises_witness :
    (demoBitcore.base64Decode (JSString.ofString "AAAA")).length < 65
    ∧ ∃ e, { demoMessage with error := some "The signature was invalid" }.verify demoBitcore
        (.address demoAddress) (.string (JSString.ofString "AAAA"))
          = (.error e, { demoMessage with error := some "The signature was invalid" }) :=
  ⟨by decide,
    verify_malformed_signature_raises demoBitcore
      { demoMessage with error := some "The signature was invalid" } (.address demoAddress)
      (.string (JSString.ofString "AAAA"))
      (Or.inr (Or.inr ⟨JSString.ofString "AAAA", rfl, Or.inl (by decide)⟩))⟩

/-- C5 as stated fails. A valid address and a signature text that decodes to 66
bytes, a text that is not valid base64 (it holds a blank), and a signature
argument that is a `String` object and no primitive string: on each, `verify`
does not raise, it returns true. -/
theorem verify_accepts_malformed_signature :
    ((demoBitcore.base64Decode demoLongSignatureText).length = 66
      ∧ demoMessage.verify demoBitcore (.address demoAddress) (.string demoLongSignatureText)
          = (.ok true, demoMessage))
    ∧ (base64DecodeStrict demoDirtySignatureText = .error "not base64"
      ∧ demoMessage.verify demoBitcore (.address demoAddress) (.string demoDirtySignatureText)
          = (.ok true, demoMessage))
    ∧ demoMessage.verify demoBitcore (.address demoAddress) (.stringObject demoSignatureText)
        = (.ok true, demoMessage) := by
  decide

/-- C7. For every call of `verify` that returns a boolean, with the address it
resolved, the signature it decoded and the public key it recovered: if it
returns true the receiver after the call is the receiver before it, so `error`
is what it was (not set on a fresh message, an earlier reason left in place);
if it returns false the receiver differs only in `error`, which is the one
reason of this call, whatever it held before: 'The signature did not match the
message digest' when the derived address string differs from the claimed one,
and 'The signature was invalid' when the strings agree and `ECDSA.verify` is
false. -/
theorem verify_error_channel {T : Types} (B : Bitcore T) (self self' : Message)
    (addr : AddressArg T) (s : JSValue T) (b : Bool)
    (h : self.verify B addr s = (.ok b, self')) :
    ∃ (a : T.Address) (sig : Signature) (pk : T.PublicKey),
      resolveAddress B addr = .ok a ∧ decodeSignature B s = .ok sig
      ∧ B.toPublicKey { hashbuf := some (self.magicHash B), sig := some sig } = .ok pk
      ∧ (b = true → self' = self)
      ∧ (b = false →
          (B.addressToString (B.addressFromPublicKey pk (B.addressNetwork a))
              ≠ B.addressToString a
            ∧ self' = { self with error := some "The signature did not match the message digest" })
          ∨ (B.addressToString (B.addressFromPublicKey pk (B.addressNetwork a))
              = B.addressToString a
            ∧ B.verify (self.magicHash B) sig pk = false
            ∧ self' = { self with error := some "The signature was invalid" })) := by
  obtain ⟨a, sig, pk, haddr, hs, ha, hsig, hpk⟩ := verify_returns_inv B self self' addr s b h
  refine ⟨a, sig, pk, ha, hsig, hpk, ?_⟩
  rw [verify_of_recovered B self addr s a sig pk haddr hs ha hsig hpk] at h
  by_cases hm : B.addressToString a
      = B.addressToString (B.addressFromPublicKey pk (B.addressNetwork a))
  · cases hv : B.verify (self.magicHash B) sig pk <;> simp_all
  · simp only [ne_eq, hm, not_false_eq_true, if_true, Prod.mk.injEq, Except.ok.injEq] at h
    obtain ⟨hb, hself⟩ := h
    subst hb hself
    refine ⟨by simp, fun _ => Or.inl ⟨fun hc => hm hc.symm, rfl⟩⟩

/-- Two failed calls on an object that holds an earlier reason: a mismatch
records the mismatch reason, a signature that does not validate the other. -/
theorem verify_error_channel_witness :
    ({ demoMessage with error := some "The signature was invalid" }.verify demoBitcore
        (.address demoOtherAddress) (.string demoSignatureText)
      = (.ok false,
          { demoMessage with error := some "The signature did not match the message digest" }))
    ∧ ({ demoMessage with error := some "The signature did not match the message digest" }.verify
        demoBitcore (.address demoAddress) (.string demoBadSignatureText)
      = (.ok false, { demoMessage with error := some "The signature was invalid" }))
    ∧ ∃ (a : Nat × Nat) (sig : Signature) (pk : Nat × Bool),
      resolveAddress demoBitcore (.address demoAddress) = .ok a
      ∧ decodeSignature demoBitcore (.string demoBadSignatureText) = .ok sig
      ∧ demoBitcore.toPublicKey
          { hashbuf := some
              (Message.magicHash demoBitcore
                { demoMessage with error := some "The signature did not match the message digest" }),
            sig := some sig } = .ok pk
      ∧ (false = true →
          ({ demoMessage with error := some "The signature was invalid" } : Message)
            = { demoMessage with error := some "The signature did not match the message digest" })
      ∧ (false = false →
          (demoBitcore.addressToString
              (demoBitcore.addressFromPublicKey pk (demoBitcore.addressNetwork a))
              ≠ demoBitcore.addressToString a
            ∧ ({ demoMessage with error := some "The signature was invalid" } : Message)
              = { ({ demoMessage with
                      error := some "The signature did not match the message digest" } : Message)
                  with error := some "The signature did not match the message digest" })
          ∨ (demoBitcore.addressToString
              (demoBitcore.addressFromPublicKey pk (demoBitcore.addressNetwork a))
              = demoBitcore.addressToString a
            ∧ demoBitcore.verify
                (Message.magicHash demoBitcore
                  { demoMessage with
                    error := some "The signature did not match the message digest" }) sig pk
              = false
            ∧ ({ demoMessage with error := some "The signature was invalid" } : Message)
              = { ({ demoMessage with
                      error := some "The signature did not match the message digest" } : Message)
                  with error := some "The signature was invalid" })) :=
  ⟨by decide, by decide,
    verify_error_channel demoBitcore
      { demoMessage with error := some "The signature did not match the message digest" }
      { demoMessage with error := some "The signature was invalid" }
      (.address demoAddress) (.string demoBadSignatureText) false (by decide)⟩

/-! ## Signing -/

/-- The `ECDSA` object `_sign` hands to `signRandomK`. -/
theorem signingObject_eq {T : Types} (hash : Buffer) (k : T.PrivateKey) (p : T.PublicKey) :
    ({ ({ ({ ({} : ECDSA T) with hashbuf := some hash } : ECDSA T) with privkey := some k }
        : ECDSA T) with pubkey := some p } : ECDSA T)
      = { hashbuf := some hash, privkey := some k, pubkey := some p } := rfl

/-- The outcome of `sign` on a PrivateKey, by the outcome of the ECDSA calls. -/
theorem sign_privateKey_eq {T : Types} (B : Bitcore T) (self : Message) (k : T.PrivateKey)
    (entropy : Nat) :
    self.sign B (.privateKey k) entropy =
      match B.signRandomK
          { hashbuf := some (self.magicHash B), privkey := some k,
            pubkey := some (B.privateKeyToPublicKey k) } entropy with
      | .error e => (.error (.library e), self)
      | .ok e1 =>
        match B.calci e1 with
        | .error e => (.error (.library e), self)
        | .ok e2 =>
          match e2.sig with
          | none => (.error .typeError, self)
          | some sig => (.ok (base64Encode sig.toCompact), self) := by
  simp only [Message.sign, Message._sign]
  cases h1 : B.signRandomK
      { hashbuf := some (self.magicHash B), privkey := some k,
        pubkey := some (B.privateKeyToPublicKey k) } entropy with
  | error e => rfl
  | ok e1 =>
    cases h2 : B.calci e1 with
    | error e => simp [h2]
    | ok e2 => cases h3 : e2.sig <;> simp [h2, h3]

/-- C9. For every argument that is not a PrivateKey, `_sign` and `sign` raise
'First argument should be an instance of PrivateKey' and leave the receiver as
it was, and they do so for every implementation of the hash and of ECDSA, none
of which the outcome depends on; for a PrivateKey `sign` does not raise this
error, leaves the receiver as it was, and, when the ECDSA calls made with
`hashbuf = magicHash()` give a signature, returns the base64 text of that
signature's compact encoding. -/
theorem sign_private_key_check {T : Types} (B : Bitcore T) (self : Message) (entropy : Nat) :
    (∀ x : JSValue T, isPrivateKey x = false →
      self._sign B x entropy
        = (.error (.invalidArgument (some "First argument should be an instance of PrivateKey")),
            self)
      ∧ self.sign B x entropy
        = (.error (.invalidArgument (some "First argument should be an instance of PrivateKey")),
            self))
    ∧ (∀ k : T.PrivateKey,
      (self.sign B (.privateKey k) entropy).1
        ≠ .error (.invalidArgument (some "First argument should be an instance of PrivateKey"))
      ∧ (self.sign B (.privateKey k) entropy).2 = self
      ∧ ∀ (e1 e2 : ECDSA T) (sig : Signature),
          B.signRandomK
              { hashbuf := some (self.magicHash B), privkey := some k,
                pubkey := some (B.privateKeyToPublicKey k) } entropy = .ok e1 →
          B.calci e1 = .ok e2 → e2.sig = some sig →
          self.sign B (.privateKey k) entropy = (.ok (base64Encode sig.toCompact), self)) := by
  refine ⟨?_, ?_⟩
  · intro x hx
    cases x <;> simp_all [isPrivateKey, Message._sign, Message.sign]
  · intro k
    refine ⟨?_, ?_, ?_⟩
    · rw [sign_privateKey_eq]
      repeat' split
      all_goals simp
    · rw [sign_privateKey_eq]
      repeat' split
      all_goals simp
    · intro e1 e2 sig h1 h2 h3
      rw [sign_privateKey_eq, h1]
      simp [h2, h3]

/-! ## The round trip -/

/-- C1. Let the ECDSA calls of `sign` on the magic hash of a message give a
signature `sig` for the private key `k`, and let the collaborators be correct
on it: `sig` validates against `k`'s public key, recovery from the hash and
`sig` gives `k`'s public key, and decoding the base64 text of `sig`'s compact
encoding gives `sig` back.  Then for every address `a` of `k` (deriving an
address from `k`'s public key on `a`'s network gives `a`'s string form), `sign`
returns a text and `verify` of `a` and that text returns true, leaving the
receiver as it was. -/
theorem sign_verify_roundtrip {T : Types} (B : Bitcore T) (self : Message) (k : T.PrivateKey)
    (entropy : Nat) (a : T.Address) (e1 e2 : ECDSA T) (sig : Signature)
    (hsignK : B.signRandomK
        { hashbuf := some (self.magicHash B), privkey := some k,
          pubkey := some (B.privateKeyToPublicKey k) } entropy = .ok e1)
    (hcalci : B.calci e1 = .ok e2) (hsig : e2.sig = some sig)
    (hvalid : B.verify (self.magicHash B) sig (B.privateKeyToPublicKey k) = true)
    (hrecover : B.toPublicKey { hashbuf := some (self.magicHash B), sig := some sig }
      = .ok (B.privateKeyToPublicKey k))
    (hcodec : decodeSignature B (.string (base64Encode sig.toCompact)) = .ok sig)
    (haddr : B.addressToString
        (B.addressFromPublicKey (B.privateKeyToPublicKey k) (B.addressNetwork a))
      = B.addressToString a) :
    ∃ text : JSString,
      self.sign B (.privateKey k) entropy = (.ok text, self)
      ∧ self.verify B (.address a) (.string text) = (.ok true, self) := by
  refine ⟨base64Encode sig.toCompact, ?_, ?_⟩
  · simp [Message.sign, Message._sign, hsignK, hcalci, hsig]
  · have hne : base64Encode sig.toCompact ≠ [] := by
      simp [Signature.toCompact, beBytes, leBytes, base64Encode]
    have hne0 : (base64Encode sig.toCompact).isEmpty = false := by
      cases h : base64Encode sig.toCompact with
      | nil => exact absurd h hne
      | cons c cs => rfl
    rw [verify_of_recovered B self (.address a) _ a sig (B.privateKeyToPublicKey k) rfl
      (by simp [truthy, isString, hne0]) rfl hcodec hrecover]
    simp [haddr, hvalid]

/-- The round trip on the demo collaborators, with a compressed key. -/
theorem sign_verify_roundtrip_witness :
    ∃ text : JSString,
      demoMessage.sign demoBitcore (.privateKey demoKey) 3 = (.ok text, demoMessage)
      ∧ demoMessage.verify demoBitcore (.address demoAddress) (.string text)
          = (.ok true, demoMessage) :=
  sign_verify_roundtrip demoBitcore demoMessage demoKey 3 demoAddress
    { hashbuf := some (demoMessage.magicHash demoBitcore), privkey := some demoKey,
      pubkey := some (35, true), sig := some { r := 35, s := 3262, i := 0, compressed := false } }
    { hashbuf := some (demoMessage.magicHash demoBitcore), privkey := some demoKey,
      pubkey := some (35, true), sig := some { r := 35, s := 3262, i := 3, compressed := true } }
    { r := 35, s := 3262, i := 3, compressed := true }
    (by rfl) (by rfl) (by rfl) (by decide) (by decide) (by decide) (by decide)

/-! ## Distinct messages, distinct hash inputs -/

theorem utf8CodePoint_ne_nil (c : Nat) : utf8CodePoint c ≠ [] := by
  unfold utf8CodePoint
  split_ifs <;> simp

theorem utf8CodePoint_prefix_free (c d : Nat) (t u : Buffer) (hc : c < 0x110000)
    (hd : d < 0x110000) (h : utf8CodePoint c ++ t = utf8CodePoint d ++ u) : c = d ∧ t = u := by
  unfold utf8CodePoint at h
  split_ifs at h <;>
    simp only [List.cons_append, List.nil_append, List.cons.injEq] at h <;>
    (refine ⟨by omega, ?_⟩; first | exact h.2 | exact h.2.2 | exact h.2.2.2 | exact h.2.2.2.2 | omega)



theorem wellFormed_head (u : Nat) (r : JSString) (h : wellFormedUTF16 (u :: r) = true) :
    ∃ (c : Nat) (rest : JSString), c < 0x110000 ∧ wellFormedUTF16 rest = true
      ∧ rest.length < (u :: r).length
      ∧ bufferFromString (u :: r) = utf8CodePoint c ++ bufferFromString rest
      ∧ u :: r = codePointUnits c ++ rest := by
  cases r with
  | nil =>
    simp only [wellFormedUTF16, Bool.and_eq_true, Bool.not_eq_true', decide_eq_true_eq] at h
    refine ⟨u, [], by omega, rfl, by simp, ?_, ?_⟩
    · simp [bufferFromString, h.1]
    · simp [codePointUnits, h.2]
  | cons v rest =>
    by_cases hhi : isHighSurrogate u = true
    · simp only [wellFormedUTF16, hhi, if_true, Bool.and_eq_true] at h
      have hu : 0xD800 ≤ u ∧ u < 0xDC00 := by simpa [isHighSurrogate] using hhi
      have hv : 0xDC00 ≤ v ∧ v < 0xE000 := by simpa [isLowSurrogate] using h.1
      refine ⟨pairCodePoint u v, rest, ?_, h.2, by simp only [List.length_cons]; omega, ?_, ?_⟩
      · unfold pairCodePoint; omega
      · simp [bufferFromString, hhi, h.1]
      · have h1 : ¬ pairCodePoint u v < 0x10000 := by unfold pairCodePoint; omega
        have h2 : 0xD800 + (pairCodePoint u v - 0x10000) / 0x400 = u := by
          unfold pairCodePoint; omega
        have h3 : 0xDC00 + (pairCodePoint u v - 0x10000) % 0x400 = v := by
          unfold pairCodePoint; omega
        simp [codePointUnits, h1, h2, h3]
    · simp only [wellFormedUTF16, hhi, Bool.false_eq_true, if_false, Bool.and_eq_true,
        Bool.not_eq_true', decide_eq_true_eq] at h
      refine ⟨u, v :: rest, by omega, h.2, by simp, ?_, ?_⟩
      · simp [bufferFromString, hhi, h.1.1]
      · simp [codePointUnits, h.1.2]

theorem bufferFromString_injective_aux (n : Nat) :
    ∀ s t : JSString, s.length ≤ n → wellFormedUTF16 s = true → wellFormedUTF16 t = true →
      bufferFromString s = bufferFromString t → s = t := by
  induction n with
  | zero =>
    intro s t hlen _ ht h
    have hs : s = [] := List.length_eq_zero.mp (by omega)
    subst hs
    cases t with
    | nil => rfl
    | cons v r =>
      obtain ⟨c, rest, _, _, _, henc, _⟩ := wellFormed_head v r ht
      rw [henc] at h
      have := utf8CodePoint_ne_nil c
      cases hc : utf8CodePoint c with
      | nil => exact absurd hc this
      | cons b bs => simp [bufferFromString, hc] at h
  | succ n ih =>
    intro s t hlen hs ht h
    cases s with
    | nil =>
      cases t with
      | nil => rfl
      | cons v r =>
        obtain ⟨c, rest, _, _, _, henc, _⟩ := wellFormed_head v r ht
        rw [henc] at h
        have := utf8CodePoint_ne_nil c
        cases hc : utf8CodePoint c with
        | nil => exact absurd hc this
        | cons b bs => simp [bufferFromString, hc] at h
    | cons u q =>
      obtain ⟨c, rest, hc, hrest, hlt, henc, hunits⟩ := wellFormed_head u q hs
      cases t with
      | nil =>
        rw [henc] at h
        have := utf8CodePoint_ne_nil c
        cases hc' : utf8CodePoint c with
        | nil => exact absurd hc' this
        | cons b bs => simp [bufferFromString, hc'] at h
      | cons v r =>
        obtain ⟨d, rest', hd, hrest', _, henc', hunits'⟩ := wellFormed_head v r ht
        rw [henc, henc'] at h
        obtain ⟨hcd, htail⟩ := utf8CodePoint_prefix_free c d _ _ hc hd h
        have hrec : rest = rest' := ih rest rest' (by simp at hlt hlen; omega) hrest hrest' htail
        rw [hunits, hunits', hcd, hrec]

theorem bufferFromString_injective (s t : JSString) (hs : wellFormedUTF16 s = true)
    (ht : wellFormedUTF16 t = true) (h : bufferFromString s = bufferFromString t) : s = t :=
  bufferFromString_injective_aux s.length s t (Nat.le_refl _) hs ht h

theorem varintBufNum_length_mono (m n : Nat) (h : m ≤ n) :
    (varintBufNum m).length ≤ (varintBufNum n).length := by
  unfold varintBufNum
  split_ifs <;> simp [leBytes] <;> omega

theorem lengthPrefixed_injective (b c : Buffer)
    (h : varintBufNum b.length ++ b = varintBufNum c.length ++ c) : b = c := by
  have hlen : (varintBufNum b.length).length + b.length
      = (varintBufNum c.length).length + c.length := by
    have := congrArg List.length h
    simpa using this
  have heq : b.length = c.length := by
    rcases Nat.lt_trichotomy b.length c.length with hlt | heq | hgt
    · have := varintBufNum_length_mono _ _ (Nat.le_of_lt hlt); omega
    · exact heq
    · have := varintBufNum_length_mono _ _ (Nat.le_of_lt hgt); omega
  rw [heq] at h
  exact List.append_cancel_left h

/-- C10, as amended. `magicHash` depends on the message string only: two objects
with the same message string hash alike, whatever their `error` fields and
whether the string is held as a primitive or as a `String` object.  For two
distinct messages that are well-formed UTF-16 (every surrogate code unit
belongs to a lead/trail pair) the byte strings handed to the double hash are
distinct, so their magic hashes are equal only if the double hash collides on
two distinct inputs. -/
theorem magicHashInput_injective {T : Types} (B : Bitcore T) (m1 m2 : JSString)
    (e1 e2 : Option String) (w1 w2 : Bool) (h1 : wellFormedUTF16 m1 = true)
    (h2 : wellFormedUTF16 m2 = true) (hne : m1 ≠ m2) :
    Message.magicHash B { message := m1, error := e1, boxed := w1 }
        = Message.magicHash B { message := m1, error := e2, boxed := w2 }
    ∧ magicHashInput { message := m1, error := e1, boxed := w1 }
        ≠ magicHashInput { message := m2, error := e2, boxed := w2 }
    ∧ (Message.magicHash B { message := m1, error := e1, boxed := w1 }
          = Message.magicHash B { message := m2, error := e2, boxed := w2 } →
        ∃ x y : Buffer, x ≠ y ∧ B.sha256sha256 x = B.sha256sha256 y) := by
  have hinj : magicHashInput { message := m1, error := e1, boxed := w1 }
      ≠ magicHashInput { message := m2, error := e2, boxed := w2 } := by
    intro h
    rw [magicHashInput_eq, magicHashInput_eq] at h
    simp only [specPreimage, List.append_assoc] at h
    have h' := List.append_cancel_left (List.append_cancel_left h)
    exact hne (bufferFromString_injective m1 m2 h1 h2 (lengthPrefixed_injective _ _ h'))
  exact ⟨rfl, hinj, fun h => ⟨_, _, hinj, h⟩⟩

/-- The messages `a` and `b`. -/
theorem magicHashInput_injective_witness :
    Message.magicHash demoBitcore { message := [0x61], error := none, boxed := false }
        = Message.magicHash demoBitcore
            { message := [0x61], error := some "The signature was invalid", boxed := true }
    ∧ magicHashInput { message := [0x61], error := none, boxed := false }
        ≠ magicHashInput
            { message := [0x62], error := some "The signature was invalid", boxed := true }
    ∧ (Message.magicHash demoBitcore { message := [0x61], error := none, boxed := false }
          = Message.magicHash demoBitcore
              { message := [0x62], error := some "The signature was invalid", boxed := true } →
        ∃ x y : Buffer, x ≠ y ∧ demoBitcore.sha256sha256 x = demoBitcore.sha256sha256 y) :=
  magicHashInput_injective demoBitcore [0x61] [0x62] none (some "The signature was invalid")
    false true (by decide) (by decide) (by decide)

/-- C10 as stated fails: the one-unit strings `\uD800` and `\uD801` are distinct
messages, and the bytes handed to the double hash are the same for both. -/
theorem magicHashInput_lone_surrogates :
    ([0xD800] : JSString) ≠ [0xD801]
    ∧ magicHashInput { message := [0xD800] } = magicHashInput { message := [0xD801] } := by
  decide

end AxecoreMessage
